import Mathlib

/-!
Verification of the Smart Doc Assistant retrieval pipeline.

This file is a shallow embedding, in Lean 4, of the core components of the
RAG (retrieval-augmented generation) Node.js application: the text chunker
(`chunk.generator.js`), the cosine-similarity search module
(`cosine-similarity-search.js`), the SQLite query/document store
(`sqlite.db.js`), the embedding file store (`embedding.store.js`), the prompt
embedding cache (`prompt.cache.js`) and the two versions of the RAG
orchestrator (`rag.service.js`).

Modelling conventions:
* JavaScript strings are modelled as `List Char` (`JStr`).  `String.length`
  of the source is list length (JS counts UTF-16 units; the two agree on the
  BMP characters these documents contain), `trim` drops whitespace at both
  ends, and the regex split `/[.!?]+/` followed by the blank filter of the
  source is modelled by a per-character split followed by the same filter
  (the two produce the same filtered list).
* JavaScript numbers used as similarity scores are modelled as `ℚ`.  The
  floating-point cosine value itself is left as an oracle parameter `cos`;
  the `compute-cosine-similarity` package's input validation (it throws on
  arrays of different lengths) is modelled explicitly.
* Mutable module-level state (the chunker's `textChunks` array, the SQLite
  tables, the embedding files on disk, the prompt cache) is modelled by
  explicit state passing.
* Fallible code returns `Except` / `Option`; a JavaScript `throw` is an
  `Except.error`, a `try/catch` is a `match` on it.
* External provider calls (Gemini embed / generate) are modelled as total
  oracle functions plus an explicit event log recording each call.
-/

/-- JavaScript strings, modelled as lists of characters. -/
abbrev JStr := List Char

/-- JavaScript `String.prototype.trim`: drop whitespace from both ends. -/
def jsTrim (s : JStr) : JStr :=
  ((s.dropWhile Char.isWhitespace).reverse.dropWhile Char.isWhitespace).reverse

/-- Split a string at every character satisfying `p`, keeping empty parts
(`n` separator characters produce `n + 1` parts), as JS `split` does for a
single-character separator. -/
def jsSplitChars (p : Char → Bool) : JStr → List JStr
  | [] => [[]]
  | c :: cs =>
    let r := jsSplitChars p cs
    if p c then [] :: r
    else
      match r with
      | [] => [[c]]
      | h :: t => (c :: h) :: t

/-- Sentence terminators of the chunker's regex `[.!?]+`. -/
def isTerminator (c : Char) : Bool := c = '.' || c = '!' || c = '?'

/-- Inner loop of `createTextChunks` (chunk.generator.js, lines 34-53): the
word-level accumulation used when a single sentence exceeds `maxChunkSize`.
The accumulator is the pair (chunks pushed so far, current `wordChunk`). -/
def wordStep (maxChunkSize : Nat) (acc : List JStr × JStr) (word : JStr) :
    List JStr × JStr :=
  let cs := acc.1
  let wc := acc.2
  if wc.length + word.length + 1 > maxChunkSize then
    if wc ≠ [] then (cs ++ [jsTrim wc], word)
    else (cs ++ [word], wc)
  else (cs, if wc ≠ [] then wc ++ (' ' :: word) else word)

/-- Body of the sentence loop of `createTextChunks` (chunk.generator.js,
lines 22-60).  The accumulator is the pair (chunks pushed so far, current
`currentChunk`).  Note the source checks `currentChunk.length +
sentence.length + 1 > maxChunkSize` but then joins with the two-character
separator `'. '`. -/
def sentenceStep (maxChunkSize : Nat) (acc : List JStr × JStr) (sentRaw : JStr) :
    List JStr × JStr :=
  let sentence := jsTrim sentRaw
  let chunks := acc.1
  let cur := acc.2
  if sentence = [] then acc
  else if cur.length + sentence.length + 1 > maxChunkSize then
    let chunks1 := if cur ≠ [] then chunks ++ [jsTrim cur] else chunks
    if sentence.length > maxChunkSize then
      let words := jsSplitChars (fun c => c = ' ') sentence
      words.foldl (wordStep maxChunkSize) (chunks1, [])
    else (chunks1, sentence)
  else (chunks, if cur ≠ [] then cur ++ ('.' :: ' ' :: sentence) else sentence)

/-- The pure value computed by `createTextChunks(text, maxChunkSize)`
(chunk.generator.js, lines 10-68): split into sentence-like segments,
accumulate them under the size threshold, fall back to word accumulation for
oversized sentences, flush the trailing buffer. -/
def createTextChunksList (text : JStr) (maxChunkSize : Nat) : List JStr :=
  if jsTrim text = [] then []
  else
    let sentences := (jsSplitChars isTerminator text).filter (fun s => jsTrim s ≠ [])
    let r := sentences.foldl (sentenceStep maxChunkSize) ([], [])
    if jsTrim r.2 ≠ [] then r.1 ++ [jsTrim r.2] else r.1

/-- The chunker module's mutable state: the module-level `let textChunks = []`
of chunk.generator.js, line 2. -/
structure ChunkerState where
  textChunks : List JStr
deriving DecidableEq, Repr

/-- `createTextChunks` as the source executes it: it first rebinds the
module-level `textChunks` to a fresh array, fills it, and returns it; the
incoming state is never read.  Result: (new module state, returned array). -/
def createTextChunks (_s : ChunkerState) (text : JStr) (maxChunkSize : Nat) :
    ChunkerState × List JStr :=
  let r := createTextChunksList text maxChunkSize
  (⟨r⟩, r)

/-- `getTextChunks()` (chunk.generator.js, lines 74-76): returns the
module-level array. -/
def getTextChunks (s : ChunkerState) : List JStr := s.textChunks

/-! ## Similarity search (cosine-similarity-search.js) -/

/-- One element of a provider embedding array: an object with a `values`
field holding the numeric vector. -/
structure EmbeddingPart where
  values : List ℚ
deriving DecidableEq, Repr

/-- A candidate chunk as consumed by the similarity search: index, text and
embedding payload. -/
structure ChunkEmbedding where
  chunkIndex : Nat
  text : JStr
  embedding : List EmbeddingPart
deriving DecidableEq, Repr

/-- A chunk with its similarity score, as built by
`calculateSimilarityScores`. -/
structure ScoredChunk where
  chunkIndex : Nat
  text : JStr
  similarityScore : ℚ
deriving DecidableEq, Repr

/-- The `compute-cosine-similarity` package: it throws when the two input
arrays have different lengths; on equal lengths it returns the
floating-point cosine value, modelled here by the oracle `cos`. -/
def cosineSimilarity (cos : List ℚ → List ℚ → ℚ) (x y : List ℚ) :
    Except JStr ℚ :=
  if x.length = y.length then .ok (cos x y)
  else .error ("input arrays must have the same length".toList)

/-- Score one candidate (cosine-similarity-search.js, lines 60-68):
`cosineSimilarity(promptEmbedding[0].values, chunk.embedding[0].values)`.
Indexing an empty array yields `undefined` and the `.values` access throws,
modelled by the `TypeError` error case. -/
def scoreOneChunk (cos : List ℚ → List ℚ → ℚ)
    (promptEmbedding : List EmbeddingPart) (chunk : ChunkEmbedding) :
    Except JStr ScoredChunk :=
  match promptEmbedding.head?, chunk.embedding.head? with
  | some p, some c =>
    (cosineSimilarity cos p.values c.values).map
      (fun s => ⟨chunk.chunkIndex, chunk.text, s⟩)
  | _, _ => .error ("TypeError".toList)

/-- `calculateSimilarityScores` (lines 59-69): map every candidate to a
scored chunk; an exception thrown for any single candidate propagates out of
the whole `map`. -/
def calculateSimilarityScores (cos : List ℚ → List ℚ → ℚ)
    (promptEmbedding : List EmbeddingPart) (embeddings : List ChunkEmbedding) :
    Except JStr (List ScoredChunk) :=
  embeddings.mapM (scoreOneChunk cos promptEmbedding)

/-- Insert `x` into `l`, skipping every element `y` that strictly precedes it
under the boolean comparator order `le`; `x` lands before the first element
it does not strictly follow, so elements comparing equal keep their original
relative order. -/
def stableInsert (le : α → α → Bool) (x : α) : List α → List α
  | [] => [x]
  | y :: ys =>
    if le y x && !le x y then y :: stableInsert le x ys
    else x :: y :: ys

/-- The ES2019 `Array.prototype.sort`: stable, and sorted according to the
comparator.  Modelled as a stable insertion sort (any stable comparator sort
computes the same list). -/
def jsSortBy (le : α → α → Bool) : List α → List α
  | [] => []
  | x :: xs => stableInsert le x (jsSortBy le xs)

/-- The comparator `(a, b) => b.similarityScore - a.similarityScore` of
`selectTopSimilarChunks`: `a` may precede `b` iff
`b.similarityScore ≤ a.similarityScore`. -/
def scoreDescLe (a b : ScoredChunk) : Bool :=
  b.similarityScore ≤ a.similarityScore

/-- `selectTopSimilarChunks` (lines 77-81): sort descending by score with
the stable default sort, then `slice(0, topN)`; `topN` defaults to 3. -/
def selectTopSimilarChunks (similarities : List ScoredChunk)
    (topN : Nat := 3) : List ScoredChunk :=
  (jsSortBy scoreDescLe similarities).take topN

/-- `formatChunksForLLM` (lines 88-92): each chunk text prefixed with its
bracketed one-based rank, joined by blank lines. -/
def formatChunksForLLM (topChunks : List ScoredChunk) : JStr :=
  List.intercalate ("\n\n".toList)
    (topChunks.enum.map
      (fun p => ('[' :: (Nat.repr (p.1 + 1)).toList) ++ (']' :: '\n' :: p.2.text)))

/-- `validateSimilaritySearchInputs` (lines 39-51): both the candidate set
and the prompt embedding must be non-empty. -/
def validateSimilaritySearchInputs (promptEmbedding : List EmbeddingPart)
    (embeddings : List ChunkEmbedding) : Bool :=
  !embeddings.isEmpty && !promptEmbedding.isEmpty

/-- Return value of `findTopSimilarChunks`: on success the formatted context
string, on empty input or any caught error the empty array `[]` — two
different JavaScript types at the same interface. -/
inductive SimilarityResult where
  | formatted (text : JStr)
  | emptyArr
deriving DecidableEq, Repr

/-- Candidate-set fallback chain of `findTopSimilarChunks` (lines 116-124):
the explicit argument, else the embeddings loaded from file, else the
module-global `chunkEmbeddings`. -/
def resolveEmbeddings (chunkEmbeddings : Option (List ChunkEmbedding))
    (fileEmbeddings globalEmbeddings : List ChunkEmbedding) :
    List ChunkEmbedding :=
  let e1 := chunkEmbeddings.getD []
  let e2 := if e1 = [] then fileEmbeddings else e1
  if e2 = [] then globalEmbeddings else e2

/-- `findTopSimilarChunks` (lines 113-153).  `fileEmbeddings` is what
`loadChunkEmbeddingsFromFile` would return and `globalEmbeddings` the
module-global fallback.  The whole body sits in a `try/catch` whose handler
returns `[]`; the assignment to the module-global `top3SimilarChunks` does
not affect the returned value and is not modelled. -/
def findTopSimilarChunks (cos : List ℚ → List ℚ → ℚ)
    (promptEmbedding : List EmbeddingPart)
    (chunkEmbeddings : Option (List ChunkEmbedding))
    (fileEmbeddings globalEmbeddings : List ChunkEmbedding) :
    SimilarityResult :=
  let embeddings := resolveEmbeddings chunkEmbeddings fileEmbeddings globalEmbeddings
  if !validateSimilaritySearchInputs promptEmbedding embeddings then .emptyArr
  else
    match calculateSimilarityScores cos promptEmbedding embeddings with
    | .error _ => .emptyArr
    | .ok similarities =>
      .formatted (formatChunksForLLM (selectTopSimilarChunks similarities 3))

/-- Ascending chunk indices, the order in which the pipeline supplies
candidates. -/
def ascIdx (a b : ScoredChunk) : Prop := a.chunkIndex < b.chunkIndex

/-- Strictly descending by score, ties strictly ascending by chunk index:
the ranking order the specification asks for. -/
def strictRank (a b : ScoredChunk) : Prop :=
  b.similarityScore < a.similarityScore ∨
  (b.similarityScore = a.similarityScore ∧ a.chunkIndex < b.chunkIndex)

/-- Total-order comparator following the claim's words: strictly descending
by score, ties broken by ascending chunkIndex. -/
def claimLexLe (a b : ScoredChunk) : Bool :=
  b.similarityScore < a.similarityScore ||
  (b.similarityScore == a.similarityScore && a.chunkIndex ≤ b.chunkIndex)

/-- Definition following the CLAIM of C2 verbatim (not the source): the
first `k` elements of the candidates sorted strictly descending by score
with ties broken by ascending chunkIndex. -/
def claimTopK (similarities : List ScoredChunk) (k : Nat) : List ScoredChunk :=
  (jsSortBy claimLexLe similarities).take k

/-! ## SQLite query and document store (sqlite.db.js) -/

/-- A row of the `user_queries` table.  The uuid `queryId` is modelled as a
number drawn from a per-table counter, `createdAt` by a strictly increasing
clock; `liked`/`disliked`/`isDeleted` are the 0/1 columns. -/
structure QueryRow where
  queryId : Nat
  prompt : JStr
  answer : JStr
  createdAt : Nat
  liked : Bool
  disliked : Bool
  isDeleted : Bool
deriving DecidableEq, Repr

/-- The `user_queries` table plus the uuid source and the clock. -/
structure QueryTable where
  rows : List QueryRow
  nextId : Nat
  clock : Nat
deriving DecidableEq, Repr

/-- SQL `LOWER(TRIM(x))`: SQLite's `LOWER` folds ASCII letters only, which
`Char.toLower` matches on this data. -/
def sqlNorm (s : JStr) : JStr := (jsTrim s).map (fun c => c.toLower)

/-- `getQueryById` (sqlite.db.js, lines 119-134):
`WHERE queryId = ? AND isDeleted = 0` — note the deleted filter. -/
def getQueryById (t : QueryTable) (queryId : Nat) : Option QueryRow :=
  t.rows.find? (fun r => r.queryId == queryId && !r.isDeleted)

/-- `insertQuery` (lines 90-112): insert a fresh row with default feedback
flags and `datetime('now')`, then return `getQueryById(queryId)`. -/
def insertQuery (t : QueryTable) (prompt answer : JStr) :
    QueryTable × Option QueryRow :=
  let row : QueryRow := ⟨t.nextId, prompt, answer, t.clock, false, false, false⟩
  let t2 : QueryTable := ⟨t.rows ++ [row], t.nextId + 1, t.clock + 1⟩
  (t2, getQueryById t2 row.queryId)

/-- Comparator modelling `ORDER BY createdAt DESC`. -/
def createdDescLe (a b : QueryRow) : Bool := b.createdAt ≤ a.createdAt

/-- `getAllQueries` (lines 140-157): the 10 most recent non-deleted rows,
newest first. -/
def getAllQueries (t : QueryTable) : List QueryRow :=
  (jsSortBy createdDescLe (t.rows.filter (fun r => !r.isDeleted))).take 10

/-- `findQueryByPrompt` (lines 288-305): most recent non-deleted row whose
`LOWER(TRIM(prompt))` matches the normalized argument. -/
def findQueryByPrompt (t : QueryTable) (prompt : JStr) : Option QueryRow :=
  (jsSortBy createdDescLe
    (t.rows.filter
      (fun r => sqlNorm r.prompt == sqlNorm prompt && !r.isDeleted))).head?

/-- `updateQueryFeedback` (lines 165-193): `SET liked = COALESCE(?, liked),
disliked = COALESCE(?, disliked) WHERE queryId = ? AND isDeleted = 0`.  A
field not supplied in the feedback object is passed as SQL NULL (`none`),
so `COALESCE` keeps the stored value.  Returns (table, `changes > 0`). -/
def updateQueryFeedback (t : QueryTable) (queryId : Nat)
    (liked disliked : Option Bool) : QueryTable × Bool :=
  let touched := fun (r : QueryRow) => r.queryId == queryId && !r.isDeleted
  let rows := t.rows.map (fun r =>
    if touched r then
      { r with liked := liked.getD r.liked, disliked := disliked.getD r.disliked }
    else r)
  (⟨rows, t.nextId, t.clock⟩, t.rows.any touched)

/-- `deleteQuery` (lines 200-222): soft delete, `SET isDeleted = 1 WHERE
queryId = ? AND isDeleted = 0`. -/
def deleteQuery (t : QueryTable) (queryId : Nat) : QueryTable × Bool :=
  let touched := fun (r : QueryRow) => r.queryId == queryId && !r.isDeleted
  let rows := t.rows.map (fun r =>
    if touched r then { r with isDeleted := true } else r)
  (⟨rows, t.nextId, t.clock⟩, t.rows.any touched)

/-- `deleteAllQueries` (lines 311-324): hard delete of every row; returns
the number of removed records. -/
def deleteAllQueries (t : QueryTable) : QueryTable × Nat :=
  (⟨[], t.nextId, t.clock⟩, t.rows.length)

/-- `truncateTable` (lines 353-364): `DELETE FROM user_queries` plus the
sqlite sequence reset. -/
def truncateTable (t : QueryTable) : QueryTable :=
  ⟨[], t.nextId, t.clock⟩

/-- A row of the `documents` table. -/
structure DocumentRow where
  docId : Nat
  originalName : JStr
  storedFileName : JStr
  filePath : JStr
  fileSize : Nat
  mimeType : JStr
  uploadedAt : Nat
  processedAt : Option Nat
  embeddingDocId : Option JStr
  totalEmbeddings : Nat
  isDeleted : Bool
deriving DecidableEq, Repr

/-- `getDocumentById` (lines 403-418): `WHERE docId = ? AND isDeleted = 0`. -/
def getDocumentById (docs : List DocumentRow) (docId : Nat) :
    Option DocumentRow :=
  docs.find? (fun d => d.docId == docId && !d.isDeleted)

/-- JavaScript truthiness of a nullable string: `null`/`undefined` and the
empty string are falsy. -/
def jsOptStrFalsy : Option JStr → Bool
  | none => true
  | some s => s.isEmpty

/-! ## Prompt cache (prompt.cache.js) and provider calls -/

/-- A record of one external provider call. -/
inductive ProviderCall where
  | embed (text : JStr)
  | generate (prompt : JStr)
deriving DecidableEq, Repr

/-- `generatePromptKey` (prompt.cache.js, lines 14-16): md5 of the
lowercased, trimmed prompt.  The md5 digest is modelled by the normalized
text itself (digest collisions are not modelled). -/
def generatePromptKey (prompt : JStr) : JStr :=
  jsTrim (prompt.map (fun c => c.toLower))

/-- The `node-localstorage` store holding one embedding per prompt key;
later writes shadow earlier ones. -/
abbrev PromptCache := List (JStr × List EmbeddingPart)

/-- `getStoredPromptEmbedding` (lines 44-60). -/
def getStoredPromptEmbedding (cache : PromptCache) (prompt : JStr) :
    Option (List EmbeddingPart) :=
  cache.lookup (generatePromptKey prompt)

/-- `storePromptEmbedding` (lines 23-37). -/
def storePromptEmbedding (cache : PromptCache) (prompt : JStr)
    (embedding : List EmbeddingPart) : PromptCache :=
  (generatePromptKey prompt, embedding) :: cache

/-- The static test embedding `[[{ values: [0.1, 0.2, 0.3] }]]` of
embedding.generator.js, line 99, flattened to the typed embedding shape. -/
def staticPromptEmbedding : List EmbeddingPart := [⟨[1/10, 2/10, 3/10]⟩]

/-- `generateEmbeddingsForUserPrompt` (embedding.generator.js, lines
95-102): call the Gemini embed endpoint when `USE_LLM_MODEL` is set,
otherwise return the static test embedding.  Also returns the provider-call
log of the call. -/
def generateEmbeddingsForUserPrompt (useLLM : Bool)
    (embedOracle : JStr → List EmbeddingPart) (prompt : JStr) :
    List EmbeddingPart × List ProviderCall :=
  if useLLM then (embedOracle prompt, [.embed prompt])
  else (staticPromptEmbedding, [])

/-- `getPromptEmbeddingWithCache` (prompt.cache.js, lines 67-89): local
storage first, else generate and store.  Returns (embedding, new cache,
provider-call log). -/
def getPromptEmbeddingWithCache (useLLM : Bool)
    (embedOracle : JStr → List EmbeddingPart) (cache : PromptCache)
    (prompt : JStr) :
    List EmbeddingPart × PromptCache × List ProviderCall :=
  match getStoredPromptEmbedding cache prompt with
  | some emb => (emb, cache, [])
  | none =>
    let g := generateEmbeddingsForUserPrompt useLLM embedOracle prompt
    (g.1, storePromptEmbedding cache prompt g.1, g.2)

/-! ## Retrieval orchestrator, legacy version (rag.service.js) -/

/-- Interpolating the similarity result into the prompt template: a string
interpolates as itself, the empty array `[]` as the empty string. -/
def similarityResultText : SimilarityResult → JStr
  | .formatted t => t
  | .emptyArr => []

/-- `formatLLMMessage` (utils/util.js): the fixed instruction template
wrapped around the context block and the question. -/
def formatPromptForLLM (userPrompt chunksText : JStr) : JStr :=
  ("You are an assistant that answers ONLY from the provided document context.\n    If the answer is not present, say: \"Answer not found in document.\"\n        --- DOCUMENT CONTEXT ---:\n        ".toList)
    ++ chunksText
    ++ ("\n        --- END DOCUMENT CONTEXT ---\n\n        Question:\n        ".toList)
    ++ userPrompt

/-- Response object of `RAGService.processPrompt`: answer, queryId,
finalPrompt (absent for cache hits) and the `metadata.cached` flag. -/
structure RagResponse where
  answer : JStr
  queryId : Nat
  finalPrompt : Option JStr
  cached : Bool
deriving DecidableEq, Repr

/-- Mutable world of the legacy orchestrator: the query table, the prompt
cache, and the two candidate-chunk sources its `findTopSimilarChunks` call
can fall back to (the embeddings file of the configured test PDF, and the
module-global `chunkEmbeddings`). -/
structure WorldV1 where
  queryTable : QueryTable
  promptCache : PromptCache
  fileEmbeddings : List ChunkEmbedding
  globalEmbeddings : List ChunkEmbedding
deriving DecidableEq, Repr

/-- `RAGService.processPrompt` (rag.service.js, lines 17-69): exact-match DB
lookup first; on a hit return the stored answer tagged cached with no
further work; on a miss run prompt embedding (with cache), similarity
search, prompt assembly, the LLM call, and insert the new query row.
Returns (new world, provider-call log, result); the `.error` case is the
rethrown pipeline failure (a `null` row from `insertQuery`). -/
def processPrompt (useLLM : Bool) (cos : List ℚ → List ℚ → ℚ)
    (embedOracle : JStr → List EmbeddingPart) (genOracle : JStr → JStr)
    (w : WorldV1) (userPrompt : JStr) :
    WorldV1 × List ProviderCall × Except JStr RagResponse :=
  match findQueryByPrompt w.queryTable userPrompt with
  | some cachedQuery =>
    (w, [], .ok ⟨cachedQuery.answer, cachedQuery.queryId, none, true⟩)
  | none =>
    let pe := getPromptEmbeddingWithCache useLLM embedOracle w.promptCache userPrompt
    let similarityResult :=
      findTopSimilarChunks cos pe.1 none w.fileEmbeddings w.globalEmbeddings
    let finalPrompt :=
      formatPromptForLLM userPrompt (similarityResultText similarityResult)
    let llmAnswer := genOracle finalPrompt
    let ins := insertQuery w.queryTable userPrompt llmAnswer
    match ins.2 with
    | some savedQuery =>
      (⟨ins.1, pe.2.1, w.fileEmbeddings, w.globalEmbeddings⟩,
        pe.2.2 ++ [.generate finalPrompt],
        .ok ⟨llmAnswer, savedQuery.queryId, some finalPrompt, false⟩)
    | none =>
      (⟨ins.1, pe.2.1, w.fileEmbeddings, w.globalEmbeddings⟩,
        pe.2.2 ++ [.generate finalPrompt],
        .error ("TypeError".toList))

/-! ## Retrieval orchestrator, docId-aware version (services/rag.service.js) -/

/-- Pipeline failures of the docId-aware orchestrator.  The source throws
`Error` objects; the catch block rethrows them with the same message, so the
message is what distinguishes failures.  `documentNotFound` is the thrown
`No document found for this query…`. -/
inductive RagError where
  | documentNotFound
  | internalTypeErr
deriving DecidableEq, Repr

/-- Mutable world of the docId-aware orchestrator. -/
structure WorldV2 where
  queryTable : QueryTable
  promptCache : PromptCache
  documents : List DocumentRow
deriving DecidableEq, Repr

/-- `RAGService.getPromptEmbedding` (docId-aware rag.service.js, lines
45-60): the cached embedding, or the hard-coded placeholder
`[[{values: [0.1, 0.2, 0.3]}]]` — the live provider call is commented out
in the source, so this step never calls a provider.  Returns (embedding,
new cache). -/
def getPromptEmbeddingV2 (cache : PromptCache) (userPrompt : JStr) :
    List EmbeddingPart × PromptCache :=
  match getStoredPromptEmbedding cache userPrompt with
  | some emb => (emb, cache)
  | none =>
    (staticPromptEmbedding, storePromptEmbedding cache userPrompt staticPromptEmbedding)

/-- `RAGService.findRelevantChunks` (lines 67-70) passes the
`embeddingDocId` string in the `chunkEmbeddings` parameter of
`findTopSimilarChunks`.  A non-empty string passes both length checks, so
`embeddings.map(...)` inside `calculateSimilarityScores` throws a
`TypeError`, the catch logs it, and the call returns `[]`.  Net effect on
every input reachable in the pipeline (the id was checked non-falsy): the
empty array. -/
def findRelevantChunks (_embeddingDocId : JStr) : SimilarityResult := .emptyArr

/-- `generateContextualAnswer` (lines 78-94): assemble the final prompt;
call the Gemini generate endpoint when `USE_LLM_MODEL` is set, otherwise
answer with the mock string.  Returns (answer, finalPrompt, call log). -/
def generateContextualAnswer (useLLM : Bool) (genOracle : JStr → JStr)
    (userPrompt : JStr) (similarityResult : SimilarityResult) :
    JStr × JStr × List ProviderCall :=
  let finalPrompt :=
    formatPromptForLLM userPrompt (similarityResultText similarityResult)
  if useLLM then (genOracle finalPrompt, finalPrompt, [.generate finalPrompt])
  else ("This is a mock LLM response for testing purposes.".toList, finalPrompt, [])

/-- `RAGService.processPrompt` (docId-aware rag.service.js, lines 114-157):
database cache check, prompt embedding, `embeddingDocId` resolution through
the Document Store — throwing `No document found for this query…` when the
document record is missing or carries no (truthy) `embeddingDocId` — then
similarity search, answer generation and persistence. -/
def processPromptV2 (useLLM : Bool) (genOracle : JStr → JStr)
    (w : WorldV2) (userPrompt : JStr) (docId : Nat) :
    WorldV2 × List ProviderCall × Except RagError RagResponse :=
  match findQueryByPrompt w.queryTable userPrompt with
  | some cachedQuery =>
    (w, [], .ok ⟨cachedQuery.answer, cachedQuery.queryId, none, true⟩)
  | none =>
    let pe := getPromptEmbeddingV2 w.promptCache userPrompt
    let docRecord := getDocumentById w.documents docId
    let embeddingDocId := docRecord.bind DocumentRow.embeddingDocId
    if jsOptStrFalsy embeddingDocId then
      ({ w with promptCache := pe.2 }, [], .error .documentNotFound)
    else
      let similarityResult := findRelevantChunks (embeddingDocId.getD [])
      let g := generateContextualAnswer useLLM genOracle userPrompt similarityResult
      let ins := insertQuery w.queryTable userPrompt g.1
      match ins.2 with
      | some savedQuery =>
        ({ w with queryTable := ins.1, promptCache := pe.2 },
          g.2.2, .ok ⟨g.1, savedQuery.queryId, some g.2.1, false⟩)
      | none =>
        ({ w with queryTable := ins.1, promptCache := pe.2 },
          g.2.2, .error .internalTypeErr)

/-! ## Embedding file store (embedding.store.js) -/

/-- One `{text, embedding}` entry of a persisted embeddings JSON file. -/
structure StoredChunk where
  text : JStr
  embedding : List EmbeddingPart
deriving DecidableEq, Repr

/-- The JSON document written per embeddings file. -/
structure EmbeddingFileData where
  pdfId : JStr
  originalPath : JStr
  createdAt : Nat
  chunks : List StoredChunk
deriving DecidableEq, Repr

/-- The embeddings directory, keyed by the id (the source writes
`<id>.json`); later writes shadow earlier ones, as `writeFileSync`
overwrites. -/
abbrev EmbeddingFs := List (JStr × EmbeddingFileData)

/-- `path.basename`: the part after the last slash. -/
def jsBasename (s : JStr) : JStr :=
  (jsSplitChars (fun c => c = '/') s).getLastD []

/-- The `chunks.map((chunk, index) => ({text: chunk, embedding:
embeddings[index]?.embedding || []}))` of `saveEmbeddingsToFile`, with `i`
the running index. -/
def buildStoredChunks (embeddings : List ChunkEmbedding) :
    List JStr → Nat → List StoredChunk
  | [], _ => []
  | c :: cs, i =>
    ⟨c, match embeddings[i]? with | some e => e.embedding | none => []⟩ ::
      buildStoredChunks embeddings cs (i + 1)

/-- `saveEmbeddingsToFile` (embedding.store.js, lines 50-78): write the data
object under `pdfId || generatePdfId(filePath)`.  `pdfIdOf` abstracts
`generatePdfId` (an md5 fingerprint of file basename and on-disk size);
`now` is `new Date().toISOString()`.  Returns (new fs, id). -/
def saveEmbeddingsToFile (pdfIdOf : JStr → JStr) (fs : EmbeddingFs)
    (filePath : JStr) (chunks : List JStr) (embeddings : List ChunkEmbedding)
    (pdfId : Option JStr) (now : Nat) : EmbeddingFs × JStr :=
  let id := match pdfId with
    | some p => if p.isEmpty then pdfIdOf filePath else p
    | none => pdfIdOf filePath
  let data : EmbeddingFileData :=
    ⟨jsBasename filePath, filePath, now, buildStoredChunks embeddings chunks 0⟩
  ((id, data) :: fs, id)

/-- `loadEmbeddingsFromFile` (lines 110-125): parse the stored JSON, `none`
when the file does not exist. -/
def loadEmbeddingsFromFile (fs : EmbeddingFs) (pdfId : JStr) :
    Option EmbeddingFileData :=
  fs.lookup pdfId

/-- `embeddingsExist` (lines 132-137): a file for `generatePdfId(filePath)`
exists. -/
def embeddingsExist (pdfIdOf : JStr → JStr) (fs : EmbeddingFs)
    (filePath : JStr) : Bool :=
  (loadEmbeddingsFromFile fs (pdfIdOf filePath)).isSome

/-- The `existingData.chunks.map((chunk, index) => ({chunkIndex: index,
text, embedding}))` of `loadExistingEmbeddings`. -/
def buildLoadedEmbeddings : List StoredChunk → Nat → List ChunkEmbedding
  | [], _ => []
  | c :: cs, i => ⟨i, c.text, c.embedding⟩ :: buildLoadedEmbeddings cs (i + 1)

/-- `loadExistingEmbeddings` (lines 87-103): requires a truthy `filePath`
whose fingerprint has a stored file, then loads `pdfId` and rebuilds the
chunk list with dense zero-based indices. -/
def loadExistingEmbeddings (pdfIdOf : JStr → JStr) (fs : EmbeddingFs)
    (filePath : JStr) (pdfId : JStr) : Option (List ChunkEmbedding) :=
  if !filePath.isEmpty && embeddingsExist pdfIdOf fs filePath then
    match loadEmbeddingsFromFile fs pdfId with
    | some data => some (buildLoadedEmbeddings data.chunks 0)
    | none => none
  else none

/-- A concrete stand-in used to instantiate the abstract cosine oracle at
concrete inputs.  The control-flow properties proved below hold for every
oracle, so concrete instances only need some computable value; the constant
avoids rational normalization, which the kernel cannot evaluate. -/
def unitOracle (_x _y : List ℚ) : ℚ := 1

instance ascIdx_decidable : DecidableRel ascIdx := fun a b => by
  unfold ascIdx
  infer_instance

instance strictRank_decidable : DecidableRel strictRank := fun a b => by
  unfold strictRank
  infer_instance

instance exceptDecEq {α β : Type _} [DecidableEq α] [DecidableEq β] :
    DecidableEq (Except α β) := fun a b => by
  cases a <;> cases b
  case error.error x y =>
    exact if h : x = y then .isTrue (by rw [h])
      else .isFalse (by simp [Except.error.injEq, h])
  case error.ok x y => exact .isFalse (fun hc => Except.noConfusion hc)
  case ok.error x y => exact .isFalse (fun hc => Except.noConfusion hc)
  case ok.ok x y =>
    exact if h : x = y then .isTrue (by rw [h])
      else .isFalse (by simp [Except.ok.injEq, h])

/-! ### Properties of the stable sort -/

theorem stableInsert_perm (le : α → α → Bool) (x : α) (l : List α) :
    (stableInsert le x l).Perm (x :: l) := by
  induction l with
  | nil => exact List.Perm.refl _
  | cons y ys ih =>
    simp only [stableInsert]
    split
    · exact (ih.cons y).trans (List.Perm.swap x y ys)
    · exact List.Perm.refl _

theorem jsSortBy_perm (le : α → α → Bool) (l : List α) :
    (jsSortBy le l).Perm l := by
  induction l with
  | nil => exact List.Perm.refl _
  | cons x xs ih =>
    exact (stableInsert_perm le x (jsSortBy le xs)).trans (ih.cons x)

theorem mem_stableInsert (le : α → α → Bool) (x : α) (l : List α) (a : α) :
    a ∈ stableInsert le x l ↔ a = x ∨ a ∈ l := by
  rw [(stableInsert_perm le x l).mem_iff, List.mem_cons]

theorem pairwise_stableInsert (le : α → α → Bool)
    (htot : ∀ a b, le a b || le b a)
    (htrans : ∀ a b c, le a b = true → le b c = true → le a c = true)
    (x : α) (l : List α) (h : l.Pairwise (fun a b => le a b = true)) :
    (stableInsert le x l).Pairwise (fun a b => le a b = true) := by
  induction l with
  | nil => simp [stableInsert]
  | cons y ys ih =>
    rw [List.pairwise_cons] at h
    obtain ⟨hy, hys⟩ := h
    simp only [stableInsert]
    split
    case isTrue hcond =>
      rw [Bool.and_eq_true] at hcond
      refine List.pairwise_cons.mpr ⟨?_, ih hys⟩
      intro z hz
      rcases (mem_stableInsert le x ys z).mp hz with hzx | hzys
      · exact hzx ▸ hcond.1
      · exact hy z hzys
    case isFalse hcond =>
      have hxy : le x y = true := by
        rcases (Bool.or_eq_true _ _).mp (htot x y) with h1 | h1
        · exact h1
        · by_contra h2
          exact hcond (by simp [h1, Bool.eq_false_iff.mpr h2])
      refine List.pairwise_cons.mpr ⟨?_, List.pairwise_cons.mpr ⟨hy, hys⟩⟩
      intro z hz
      rcases List.mem_cons.mp hz with hzy | hzys
      · exact hzy ▸ hxy
      · exact htrans x y z hxy (hy z hzys)

theorem jsSortBy_pairwise (le : α → α → Bool)
    (htot : ∀ a b, le a b || le b a)
    (htrans : ∀ a b c, le a b = true → le b c = true → le a c = true)
    (l : List α) :
    (jsSortBy le l).Pairwise (fun a b => le a b = true) := by
  induction l with
  | nil => simp [jsSortBy]
  | cons x xs ih => exact pairwise_stableInsert le htot htrans x _ ih

theorem stableInsert_strictRank (x : ScoredChunk) (l : List ScoredChunk)
    (hl : l.Pairwise strictRank)
    (hidx : ∀ y ∈ l, x.chunkIndex < y.chunkIndex) :
    (stableInsert scoreDescLe x l).Pairwise strictRank := by
  induction l with
  | nil => simp [stableInsert]
  | cons y ys ih =>
    rw [List.pairwise_cons] at hl
    obtain ⟨hy, hys⟩ := hl
    simp only [stableInsert]
    split
    case isTrue hcond =>
      rw [Bool.and_eq_true] at hcond
      have hlt : x.similarityScore < y.similarityScore := by
        have h2 := hcond.2
        simp only [scoreDescLe, Bool.not_eq_true', decide_eq_false_iff_not, not_le] at h2
        exact h2
      refine List.pairwise_cons.mpr
        ⟨?_, ih hys (fun z hz => hidx z (List.mem_cons_of_mem y hz))⟩
      intro z hz
      rcases (mem_stableInsert scoreDescLe x ys z).mp hz with rfl | hzys
      · exact Or.inl hlt
      · exact hy z hzys
    case isFalse hcond =>
      have hyx : y.similarityScore ≤ x.similarityScore := by
        by_contra hcon
        push_neg at hcon
        exact hcond (by
          simp only [scoreDescLe, Bool.and_eq_true, Bool.not_eq_true',
            decide_eq_true_eq, decide_eq_false_iff_not, not_le]
          exact ⟨le_of_lt hcon, hcon⟩)
      refine List.pairwise_cons.mpr ⟨?_, List.pairwise_cons.mpr ⟨hy, hys⟩⟩
      intro z hz
      rcases List.mem_cons.mp hz with rfl | hzys
      · rcases lt_or_eq_of_le hyx with hlt | heq
        · exact Or.inl hlt
        · exact Or.inr ⟨heq, hidx z (List.mem_cons_self z ys)⟩
      · have hyz := hy z hzys
        rcases hyz with hlt | ⟨heq2, _⟩
        · exact Or.inl (lt_of_lt_of_le hlt hyx)
        · have hzx : z.similarityScore ≤ x.similarityScore := heq2 ▸ hyx
          rcases lt_or_eq_of_le hzx with hlt2 | heq3
          · exact Or.inl hlt2
          · exact Or.inr ⟨heq3, hidx z (List.mem_cons_of_mem y hzys)⟩

theorem jsSortBy_strictRank (l : List ScoredChunk) (h : l.Pairwise ascIdx) :
    (jsSortBy scoreDescLe l).Pairwise strictRank := by
  induction l with
  | nil => simp [jsSortBy]
  | cons x xs ih =>
    rw [List.pairwise_cons] at h
    obtain ⟨hx, hxs⟩ := h
    exact stableInsert_strictRank x _ (ih hxs)
      (fun y hy => hx y ((jsSortBy_perm scoreDescLe xs).subset hy))

theorem claimLexLe_total (a b : ScoredChunk) : claimLexLe a b || claimLexLe b a := by
  simp only [claimLexLe, Bool.or_eq_true, Bool.and_eq_true, decide_eq_true_eq,
    beq_iff_eq]
  rcases lt_trichotomy a.similarityScore b.similarityScore with h | h | h
  · exact Or.inr (Or.inl h)
  · rcases Nat.le_total a.chunkIndex b.chunkIndex with hi | hi
    · exact Or.inl (Or.inr ⟨h.symm, hi⟩)
    · exact Or.inr (Or.inr ⟨h, hi⟩)
  · exact Or.inl (Or.inl h)

theorem claimLexLe_trans (a b c : ScoredChunk) (hab : claimLexLe a b = true)
    (hbc : claimLexLe b c = true) : claimLexLe a c = true := by
  simp only [claimLexLe, Bool.or_eq_true, Bool.and_eq_true, decide_eq_true_eq,
    beq_iff_eq] at hab hbc ⊢
  rcases hab with h1 | ⟨e1, i1⟩
  · rcases hbc with h2 | ⟨e2, _⟩
    · exact Or.inl (h2.trans h1)
    · exact Or.inl (e2 ▸ h1)
  · rcases hbc with h2 | ⟨e2, i2⟩
    · exact Or.inl (e1 ▸ h2)
    · exact Or.inr ⟨e2.trans e1, i1.trans i2⟩

instance strictRank_isAntisymm : IsAntisymm ScoredChunk strictRank := by
  refine ⟨fun a b hab hba => ?_⟩
  exfalso
  rcases hab with h1 | ⟨e1, i1⟩ <;> rcases hba with h2 | ⟨e2, i2⟩
  · exact lt_asymm h1 h2
  · exact absurd (e2 ▸ h1) (lt_irrefl _)
  · exact absurd (e1 ▸ h2) (lt_irrefl _)
  · exact Nat.lt_asymm i1 i2

theorem jsSortBy_claimLexLe_strictRank (sims : List ScoredChunk)
    (hasc : sims.Pairwise ascIdx) :
    (jsSortBy claimLexLe sims).Pairwise strictRank := by
  have hle := jsSortBy_pairwise claimLexLe claimLexLe_total claimLexLe_trans sims
  have hne : sims.Pairwise (fun a b => a.chunkIndex ≠ b.chunkIndex) :=
    hasc.imp (fun h => Nat.ne_of_lt h)
  have hne2 : (jsSortBy claimLexLe sims).Pairwise
      (fun a b => a.chunkIndex ≠ b.chunkIndex) :=
    ((jsSortBy_perm claimLexLe sims).symm.pairwise_iff
      (fun h => Ne.symm h)).mp hne
  refine (hle.and hne2).imp ?_
  rintro a b ⟨hab, hne3⟩
  simp only [claimLexLe, Bool.or_eq_true, Bool.and_eq_true, decide_eq_true_eq,
    beq_iff_eq] at hab
  rcases hab with h | ⟨he, hi⟩
  · exact Or.inl h
  · exact Or.inr ⟨he, lt_of_le_of_ne hi hne3⟩

theorem jsSort_scoreDesc_eq_claimSort (sims : List ScoredChunk)
    (hasc : sims.Pairwise ascIdx) :
    jsSortBy scoreDescLe sims = jsSortBy claimLexLe sims := by
  have s1 : List.Sorted strictRank (jsSortBy scoreDescLe sims) :=
    jsSortBy_strictRank sims hasc
  have s2 : List.Sorted strictRank (jsSortBy claimLexLe sims) :=
    jsSortBy_claimLexLe_strictRank sims hasc
  exact List.eq_of_perm_of_sorted
    ((jsSortBy_perm scoreDescLe sims).trans (jsSortBy_perm claimLexLe sims).symm)
    s1 s2

/-! ## Claim C3 — chunk length bound -/

/-- Claim C3 (code bug): the claim states every chunk of
`chunk(text, maxSize)` has length at most `maxSize` unless it is a single
overlong word.  The source guards `currentChunk.length + sentence.length +
1 > maxChunkSize` (one character of slack) but then joins with the
two-character separator `'. '`, so on `text = "ab. cd"`, `maxSize = 5` it
emits the single chunk `"ab. cd"` of length 6 — over the limit and not a
single word (it contains a space).  This contradicts the source's own
documentation of `maxChunkSize` as "Maximum characters per chunk". -/
theorem createTextChunksList_exceeds_maxChunkSize :
    createTextChunksList ("ab. cd".toList) 5 = [("ab. cd".toList)] ∧
    ("ab. cd".toList).length = 6 ∧
    ' ' ∈ ("ab. cd".toList) := by decide

/-! ## Claim C9 — purity of the chunker -/

/-- Claim C9 counterexample: the chunker is not free of cross-call shared
state.  After the call on `"Hi."` completes, the module-level `textChunks`
buffer holds that call's result (observable through `getTextChunks`); a
later call on `"Bye."` overwrites it, so the first call's result is no
longer what `getTextChunks` reports. -/
theorem createTextChunks_shared_buffer_observable :
    getTextChunks (createTextChunks ⟨[]⟩ ("Hi.".toList) 700).1 =
      (createTextChunks ⟨[]⟩ ("Hi.".toList) 700).2 ∧
    getTextChunks
        (createTextChunks (createTextChunks ⟨[]⟩ ("Hi.".toList) 700).1
          ("Bye.".toList) 700).1 ≠
      (createTextChunks ⟨[]⟩ ("Hi.".toList) 700).2 := by decide

/-- Claim C9 (corrected): the deterministic part of the claim holds — the
returned chunk list depends only on `(text, maxChunkSize)`, because the
shared buffer is rebound to a fresh array on entry, so completed sequential
calls cannot corrupt each other's returned values — but the function does
leave its result in the shared module-level `textChunks` binding, which
later calls overwrite (see the counterexample). -/
theorem createTextChunks_deterministic (s1 s2 : ChunkerState) (text : JStr)
    (maxChunkSize : Nat) :
    (createTextChunks s1 text maxChunkSize).2 =
      (createTextChunks s2 text maxChunkSize).2 ∧
    getTextChunks (createTextChunks s1 text maxChunkSize).1 =
      (createTextChunks s1 text maxChunkSize).2 :=
  ⟨rfl, rfl⟩

/-! ## Claim C2 — topK ordering -/

/-- Claim C2 counterexample: the claim requires score ties to be broken by
ascending `chunkIndex` for every candidate list.  The source sorts with the
comparator `b.similarityScore - a.similarityScore` only; the (stable)
default sort therefore keeps the input order of tied candidates.  Two
candidates with the same score (any similarity function scores two
identical embeddings identically) supplied in the order `chunkIndex 5,
chunkIndex 2` stay in that order, while the claim demands `2, 5`. -/
theorem selectTopSimilarChunks_tie_not_by_index :
    selectTopSimilarChunks [⟨5, ['a'], (1 : ℚ)⟩, ⟨2, ['b'], (1 : ℚ)⟩] 3 ≠
      claimTopK [⟨5, ['a'], (1 : ℚ)⟩, ⟨2, ['b'], (1 : ℚ)⟩] 3 := by decide

/-- Claim C2 (corrected): `topK` returns at most `k` results, the output is
descending by score with ties strictly ascending by `chunkIndex`, and it
equals the claim's sort-then-take — PROVIDED the candidates arrive in
ascending `chunkIndex` order, which is how the pipeline produces them
(`loadExistingEmbeddings` rebuilds indices densely in order).  Ties of
arbitrarily ordered candidate lists keep input order instead (see the
counterexample).  Repeated calls on identical input agree definitionally:
the model is a pure function of its arguments, as is the source (its
`.sort` mutates only the per-call array built by `map`). -/
theorem selectTopSimilarChunks_spec (sims : List ScoredChunk) (k : Nat)
    (hasc : sims.Pairwise ascIdx) :
    (selectTopSimilarChunks sims k).length ≤ k ∧
    (selectTopSimilarChunks sims k).Pairwise strictRank ∧
    selectTopSimilarChunks sims k = claimTopK sims k := by
  refine ⟨?_, ?_, ?_⟩
  · exact List.length_take_le k _
  · exact List.Pairwise.sublist (List.take_sublist k _)
      (jsSortBy_strictRank sims hasc)
  · unfold selectTopSimilarChunks claimTopK
    rw [jsSort_scoreDesc_eq_claimSort sims hasc]

/-- Witness for `selectTopSimilarChunks_spec` at a concrete ascending
candidate list. -/
theorem selectTopSimilarChunks_spec_witness :
    selectTopSimilarChunks
        [⟨0, ['a'], (2 : ℚ)⟩, ⟨1, ['b'], (1 : ℚ)⟩, ⟨2, ['c'], (2 : ℚ)⟩] 2 =
      claimTopK
        [⟨0, ['a'], (2 : ℚ)⟩, ⟨1, ['b'], (1 : ℚ)⟩, ⟨2, ['c'], (2 : ℚ)⟩] 2 :=
  (selectTopSimilarChunks_spec _ 2 (by decide)).2.2

/-! ## Claim C6 — error propagation on scoring failure -/

/-- Claim C6 counterexample: with a 2-dimensional prompt vector and a
3-dimensional candidate vector, scoring fails (the cosine package throws on
arrays of different lengths), yet `findTopSimilarChunks` returns the
empty-array success value — the error is caught and swallowed, not
propagated to the caller as the claim states. -/
theorem findTopSimilarChunks_swallows_scoring_failure :
    calculateSimilarityScores unitOracle [⟨[1, 0]⟩]
        [⟨0, ['c'], [⟨[1, 0, 0]⟩]⟩] =
      .error ("input arrays must have the same length".toList) ∧
    findTopSimilarChunks unitOracle [⟨[1, 0]⟩]
        (some [⟨0, ['c'], [⟨[1, 0, 0]⟩]⟩]) [] [] = .emptyArr := by decide

/-- Claim C6 (corrected): a scoring failure on any candidate does abort the
ranked-list computation (the exception propagates out of the `map`), but
`findTopSimilarChunks` catches it and returns the empty array — the same
value as the no-candidates case — instead of failing the call; likewise
`generateChunkEmbeddings` catches its failures and returns `[]`.  No error
reaches the caller. -/
theorem findTopSimilarChunks_error_yields_empty (cos : List ℚ → List ℚ → ℚ)
    (promptEmbedding : List EmbeddingPart)
    (chunkEmbeddings : Option (List ChunkEmbedding))
    (fileEmbeddings globalEmbeddings : List ChunkEmbedding) (e : JStr)
    (herr : calculateSimilarityScores cos promptEmbedding
        (resolveEmbeddings chunkEmbeddings fileEmbeddings globalEmbeddings) =
        .error e) :
    findTopSimilarChunks cos promptEmbedding chunkEmbeddings fileEmbeddings
      globalEmbeddings = .emptyArr := by
  unfold findTopSimilarChunks
  cases hval : validateSimilaritySearchInputs promptEmbedding
      (resolveEmbeddings chunkEmbeddings fileEmbeddings globalEmbeddings) <;>
    simp [hval, herr]

/-- Witness for `findTopSimilarChunks_error_yields_empty` at a concrete
dimension-mismatched input. -/
theorem findTopSimilarChunks_error_yields_empty_witness :
    findTopSimilarChunks unitOracle [⟨[1, 0]⟩]
        (some [⟨0, ['d'], [⟨[1, 0, 0]⟩]⟩]) [] [] = .emptyArr :=
  findTopSimilarChunks_error_yields_empty unitOracle [⟨[1, 0]⟩]
    (some [⟨0, ['d'], [⟨[1, 0, 0]⟩]⟩]) [] []
    ("input arrays must have the same length".toList) (by decide)

/-! ## Claim C10 — shape of the similarity result -/

/-- Claim C10 (confirmed): when the resolved candidate set and the prompt
embedding are non-empty and every candidate scores, the result is the
single formatted string (rank-prefixed chunk texts joined by blank lines);
when validation fails (empty candidates or missing prompt embedding) or any
scoring error is caught, the result is the empty array — and the two
results are values of distinct constructors, i.e. of different JavaScript
types at the public interface. -/
theorem findTopSimilarChunks_result_shape (cos : List ℚ → List ℚ → ℚ)
    (promptEmbedding : List EmbeddingPart)
    (chunkEmbeddings : Option (List ChunkEmbedding))
    (fileEmbeddings globalEmbeddings : List ChunkEmbedding) :
    (∀ sims,
      calculateSimilarityScores cos promptEmbedding
          (resolveEmbeddings chunkEmbeddings fileEmbeddings globalEmbeddings) =
          .ok sims →
      validateSimilaritySearchInputs promptEmbedding
          (resolveEmbeddings chunkEmbeddings fileEmbeddings globalEmbeddings) =
          true →
      findTopSimilarChunks cos promptEmbedding chunkEmbeddings fileEmbeddings
          globalEmbeddings =
        .formatted (formatChunksForLLM (selectTopSimilarChunks sims 3))) ∧
    (validateSimilaritySearchInputs promptEmbedding
        (resolveEmbeddings chunkEmbeddings fileEmbeddings globalEmbeddings) =
        false →
      findTopSimilarChunks cos promptEmbedding chunkEmbeddings fileEmbeddings
        globalEmbeddings = .emptyArr) ∧
    (∀ e, calculateSimilarityScores cos promptEmbedding
        (resolveEmbeddings chunkEmbeddings fileEmbeddings globalEmbeddings) =
        .error e →
      findTopSimilarChunks cos promptEmbedding chunkEmbeddings fileEmbeddings
        globalEmbeddings = .emptyArr) ∧
    (∀ s, SimilarityResult.formatted s ≠ SimilarityResult.emptyArr) := by
  refine ⟨?_, ?_, ?_, ?_⟩
  · intro sims hok hval
    unfold findTopSimilarChunks
    simp [hval, hok]
  · intro hval
    unfold findTopSimilarChunks
    simp [hval]
  · intro e herr
    exact findTopSimilarChunks_error_yields_empty cos promptEmbedding
      chunkEmbeddings fileEmbeddings globalEmbeddings e herr
  · intro s h
    exact SimilarityResult.noConfusion h

/-- Witness for `findTopSimilarChunks_result_shape` at a concrete
well-formed input that succeeds. -/
theorem findTopSimilarChunks_result_shape_witness :
    findTopSimilarChunks unitOracle [⟨[1, 0]⟩]
        (some [⟨0, ['c'], [⟨[1, 0]⟩]⟩]) [] [] =
      .formatted
        (formatChunksForLLM (selectTopSimilarChunks [⟨0, ['c'], (1 : ℚ)⟩] 3)) :=
  (findTopSimilarChunks_result_shape unitOracle [⟨[1, 0]⟩]
      (some [⟨0, ['c'], [⟨[1, 0]⟩]⟩]) [] []).1
    [⟨0, ['c'], (1 : ℚ)⟩] (by decide) (by decide)

/-! ## Claim C4 — soft delete visibility -/

theorem mem_of_head?_eq_some {α : Type _} {l : List α} {a : α}
    (h : l.head? = some a) : a ∈ l := by
  cases l with
  | nil => cases h
  | cons x xs =>
    simp only [List.head?] at h
    rw [← Option.some.inj h]
    exact List.mem_cons_self x xs

theorem deleteQuery_marks_deleted (t : QueryTable) (queryId : Nat) :
    ∀ r ∈ (deleteQuery t queryId).1.rows, r.queryId = queryId →
      r.isDeleted = true := by
  intro r hr hid
  simp only [deleteQuery, List.mem_map] at hr
  obtain ⟨a, ha, heq⟩ := hr
  subst heq
  by_cases hcond : (a.queryId == queryId && !a.isDeleted) = true
  · rw [if_pos hcond]
  · rw [if_neg hcond] at hid ⊢
    simp only [Bool.and_eq_true, beq_iff_eq, hid, true_and,
      Bool.not_eq_true'] at hcond
    simpa using hcond

/-- Claim C4 counterexample: soft-deleting the only row makes `getQueryById`
return `null` — the source's `getQueryById` filters `isDeleted = 0` — even
though the soft delete succeeded and the row is still physically present.
The claim's "remains retrievable by direct id lookup" is false. -/
theorem softDeleted_row_not_retrievable_by_id :
    (deleteQuery ⟨[⟨1, ['p'], ['a'], 0, false, false, false⟩], 2, 1⟩ 1).2 =
      true ∧
    getQueryById
        (deleteQuery ⟨[⟨1, ['p'], ['a'], 0, false, false, false⟩], 2, 1⟩ 1).1
        1 = none ∧
    (deleteQuery ⟨[⟨1, ['p'], ['a'], 0, false, false, false⟩], 2, 1⟩ 1).1.rows
      ≠ [] := by decide

/-- Claim C4 (corrected): after soft-deleting a stored query row, the row no
longer appears in `getAllQueries`, in `findQueryByPrompt`, NOR in
`getQueryById` (which also filters `isDeleted = 0`); the row remains
physically present in the table until hard delete (`deleteAllQueries`) or
`truncateTable` empties it. -/
theorem deleteQuery_spec (t : QueryTable) (queryId : Nat)
    (hex : ∃ r ∈ t.rows, r.queryId = queryId) :
    (∀ r ∈ getAllQueries (deleteQuery t queryId).1, r.queryId ≠ queryId) ∧
    (∀ p r, findQueryByPrompt (deleteQuery t queryId).1 p = some r →
      r.queryId ≠ queryId) ∧
    getQueryById (deleteQuery t queryId).1 queryId = none ∧
    (∃ r ∈ (deleteQuery t queryId).1.rows, r.queryId = queryId) ∧
    (deleteAllQueries (deleteQuery t queryId).1).1.rows = [] ∧
    (truncateTable (deleteQuery t queryId).1).rows = [] := by
  have hA := deleteQuery_marks_deleted t queryId
  refine ⟨?_, ?_, ?_, ?_, rfl, rfl⟩
  · intro r hr hid
    unfold getAllQueries at hr
    have h1 := List.take_subset 10 _ hr
    have h2 := (jsSortBy_perm createdDescLe _).subset h1
    have h3 := List.mem_filter.mp h2
    have h4 := hA r h3.1 hid
    have h5 := h3.2
    rw [h4] at h5
    cases h5
  · intro p r hfind hid
    unfold findQueryByPrompt at hfind
    have h1 := mem_of_head?_eq_some hfind
    have h2 := (jsSortBy_perm createdDescLe _).subset h1
    have h3 := List.mem_filter.mp h2
    have h4 := hA r h3.1 hid
    have h5 := h3.2
    rw [h4] at h5
    simp at h5
  · unfold getQueryById
    rw [List.find?_eq_none]
    intro r hr
    by_cases hid : r.queryId = queryId
    · have h4 := hA r hr hid
      simp [h4]
    · simp [hid]
  · obtain ⟨a, ha, hid⟩ := hex
    refine ⟨(if (a.queryId == queryId && !a.isDeleted) = true then
        { a with isDeleted := true } else a), ?_, ?_⟩
    · simp only [deleteQuery]
      have := List.mem_map_of_mem
        (fun x : QueryRow =>
          if x.queryId == queryId && !x.isDeleted then
            { x with isDeleted := true } else x) ha
      simpa using this
    · by_cases hcond : (a.queryId == queryId && !a.isDeleted) = true
      · rw [if_pos hcond]
        exact hid
      · rw [if_neg hcond]
        exact hid

/-- Witness for `deleteQuery_spec` at a one-row table. -/
theorem deleteQuery_spec_witness :
    getQueryById
        (deleteQuery ⟨[⟨0, ['p'], ['a'], 0, false, false, false⟩], 1, 1⟩ 0).1
        0 = none :=
  (deleteQuery_spec ⟨[⟨0, ['p'], ['a'], 0, false, false, false⟩], 1, 1⟩ 0
    (by decide)).2.2.1

/-! ## Claim C5 — partial feedback update -/

theorem find?_feedback_map (queryId : Nat) (liked disliked : Option Bool)
    (l : List QueryRow) (r : QueryRow)
    (h : l.find? (fun x => x.queryId == queryId && !x.isDeleted) = some r) :
    (l.map (fun x =>
        if x.queryId == queryId && !x.isDeleted then
          { x with liked := liked.getD x.liked,
                   disliked := disliked.getD x.disliked }
        else x)).find? (fun x => x.queryId == queryId && !x.isDeleted) =
      some { r with liked := liked.getD r.liked,
                    disliked := disliked.getD r.disliked } := by
  induction l with
  | nil => cases h
  | cons a l ih =>
    by_cases hcond : (a.queryId == queryId && !a.isDeleted) = true
    · rw [@List.find?_cons_of_pos QueryRow
        (fun x => x.queryId == queryId && !x.isDeleted) a l hcond] at h
      obtain rfl : a = r := Option.some.inj h
      simp only [List.map_cons, if_pos hcond]
      exact @List.find?_cons_of_pos QueryRow
        (fun x => x.queryId == queryId && !x.isDeleted) _ _ hcond
    · rw [@List.find?_cons_of_neg QueryRow
        (fun x => x.queryId == queryId && !x.isDeleted) a l hcond] at h
      simp only [List.map_cons, if_neg hcond]
      rw [@List.find?_cons_of_neg QueryRow
        (fun x => x.queryId == queryId && !x.isDeleted) a _ hcond]
      exact ih h

/-- Claim C5 (confirmed): the feedback update is a conditional partial
update.  A field passed as `none` (not supplied in the request) is bound as
SQL NULL and `COALESCE` keeps the stored value; in particular an update
supplying only `liked := true` leaves a stored `disliked = true` unchanged
(see the witness). -/
theorem updateQueryFeedback_partial (t : QueryTable) (queryId : Nat)
    (liked disliked : Option Bool) (r : QueryRow)
    (h : getQueryById t queryId = some r) :
    getQueryById (updateQueryFeedback t queryId liked disliked).1 queryId =
      some { r with liked := liked.getD r.liked,
                    disliked := disliked.getD r.disliked } := by
  unfold getQueryById at h ⊢
  simp only [updateQueryFeedback]
  exact find?_feedback_map queryId liked disliked t.rows r h

/-- Witness for `updateQueryFeedback_partial`: an update supplying only
`{liked: true}` preserves a previously stored `disliked = true`. -/
theorem updateQueryFeedback_partial_witness :
    getQueryById
        (updateQueryFeedback ⟨[⟨0, ['p'], ['a'], 0, false, true, false⟩], 1, 1⟩
          0 (some true) none).1 0 =
      some ⟨0, ['p'], ['a'], 0, true, true, false⟩ :=
  updateQueryFeedback_partial ⟨[⟨0, ['p'], ['a'], 0, false, true, false⟩], 1, 1⟩
    0 (some true) none ⟨0, ['p'], ['a'], 0, false, true, false⟩ (by decide)

/-! ## Claim C7 — NotFound before any provider call -/

/-- Claim C7 (confirmed): on a database-cache miss, when the caller's
document reference resolves to no truthy `embeddingDocId` (missing or
soft-deleted document record, or a record without a processed embedding
set), the docId-aware pipeline throws its document-not-found error with an
empty provider-call log — no embedding call (the live embedding call is
commented out in this source in favour of a placeholder) and no generation
call — and persists nothing to the query table. -/
theorem processPromptV2_docId_not_found (useLLM : Bool)
    (genOracle : JStr → JStr) (w : WorldV2) (userPrompt : JStr) (docId : Nat)
    (hmiss : findQueryByPrompt w.queryTable userPrompt = none)
    (hdoc : jsOptStrFalsy
        ((getDocumentById w.documents docId).bind DocumentRow.embeddingDocId) =
        true) :
    (processPromptV2 useLLM genOracle w userPrompt docId).2.1 = [] ∧
    (processPromptV2 useLLM genOracle w userPrompt docId).2.2 =
      .error RagError.documentNotFound ∧
    (processPromptV2 useLLM genOracle w userPrompt docId).1.queryTable =
      w.queryTable := by
  unfold processPromptV2
  rw [hmiss]
  simp [hdoc]

/-- Witness for `processPromptV2_docId_not_found`: empty stores, any docId. -/
theorem processPromptV2_docId_not_found_witness :
    (processPromptV2 false (fun s => s) ⟨⟨[], 0, 0⟩, [], []⟩ ['q'] 0).2.2 =
      .error RagError.documentNotFound :=
  (processPromptV2_docId_not_found false (fun s => s) ⟨⟨[], 0, 0⟩, [], []⟩
    ['q'] 0 (by decide) (by decide)).2.1

/-! ## Claim C8 — save/load round trip of the embedding store -/

theorem buildLoadedEmbeddings_maps (cs : List StoredChunk) :
    ∀ (j : Nat),
      (buildLoadedEmbeddings cs j).map ChunkEmbedding.text =
        cs.map StoredChunk.text ∧
      (buildLoadedEmbeddings cs j).map ChunkEmbedding.chunkIndex =
        List.range' j cs.length ∧
      (buildLoadedEmbeddings cs j).map ChunkEmbedding.embedding =
        cs.map StoredChunk.embedding := by
  induction cs with
  | nil => intro j; exact ⟨rfl, rfl, rfl⟩
  | cons c cs ih =>
    intro j
    obtain ⟨h1, h2, h3⟩ := ih (j + 1)
    refine ⟨?_, ?_, ?_⟩ <;>
      simp [buildLoadedEmbeddings, h1, h2, h3, List.range'_succ]

theorem buildStoredChunks_text (embeddings : List ChunkEmbedding) :
    ∀ (chunks : List JStr) (i : Nat),
      (buildStoredChunks embeddings chunks i).map StoredChunk.text = chunks := by
  intro chunks
  induction chunks with
  | nil => intro i; rfl
  | cons c cs ih => intro i; simp [buildStoredChunks, ih (i + 1)]

theorem buildStoredChunks_length (embeddings : List ChunkEmbedding) :
    ∀ (chunks : List JStr) (i : Nat),
      (buildStoredChunks embeddings chunks i).length = chunks.length := by
  intro chunks
  induction chunks with
  | nil => intro i; rfl
  | cons c cs ih => intro i; simp [buildStoredChunks, ih (i + 1)]

theorem buildStoredChunks_embedding (embeddings : List ChunkEmbedding) :
    ∀ (chunks : List JStr) (i : Nat), i + chunks.length = embeddings.length →
      (buildStoredChunks embeddings chunks i).map StoredChunk.embedding =
        (embeddings.drop i).map ChunkEmbedding.embedding := by
  intro chunks
  induction chunks with
  | nil =>
    intro i hi
    simp only [List.length_nil, Nat.add_zero] at hi
    rw [hi, List.drop_length]
    rfl
  | cons c cs ih =>
    intro i hi
    simp only [List.length_cons] at hi
    have hlt : i < embeddings.length := by omega
    simp only [buildStoredChunks, List.map_cons]
    rw [List.drop_eq_getElem_cons hlt, List.map_cons,
      List.getElem?_eq_getElem hlt]
    exact congrArg _ (ih (i + 1) (by omega))

/-- Claim C8 (confirmed): saving chunk texts with their embeddings and
loading them back under the same id returns the texts and the embedding
payloads equal to the saved inputs, in order, with `chunkIndex` dense and
zero-based.  The hypothesis `hlen` states that the caller supplies one
embedding record per chunk, as `generateChunkEmbeddings` does. -/
theorem saveEmbeddings_load_roundtrip (pdfIdOf : JStr → JStr)
    (fs : EmbeddingFs) (filePath : JStr) (chunks : List JStr)
    (embeddings : List ChunkEmbedding) (now : Nat)
    (hlen : embeddings.length = chunks.length) (hfp : filePath ≠ []) :
    Option.map (List.map ChunkEmbedding.text)
        (loadExistingEmbeddings pdfIdOf
          (saveEmbeddingsToFile pdfIdOf fs filePath chunks embeddings none now).1
          filePath (pdfIdOf filePath)) = some chunks ∧
    Option.map (List.map ChunkEmbedding.embedding)
        (loadExistingEmbeddings pdfIdOf
          (saveEmbeddingsToFile pdfIdOf fs filePath chunks embeddings none now).1
          filePath (pdfIdOf filePath)) =
      some (embeddings.map ChunkEmbedding.embedding) ∧
    Option.map (List.map ChunkEmbedding.chunkIndex)
        (loadExistingEmbeddings pdfIdOf
          (saveEmbeddingsToFile pdfIdOf fs filePath chunks embeddings none now).1
          filePath (pdfIdOf filePath)) = some (List.range chunks.length) := by
  have hempty : filePath.isEmpty = false := by
    simp [List.isEmpty_eq_false, hfp]
  have hload : loadExistingEmbeddings pdfIdOf
      (saveEmbeddingsToFile pdfIdOf fs filePath chunks embeddings none now).1
      filePath (pdfIdOf filePath) =
      some (buildLoadedEmbeddings (buildStoredChunks embeddings chunks 0) 0) := by
    unfold loadExistingEmbeddings embeddingsExist loadEmbeddingsFromFile
      saveEmbeddingsToFile
    simp [hempty, List.lookup]
  rw [hload]
  refine ⟨?_, ?_, ?_⟩
  · rw [Option.map_some']
    exact congrArg some
      ((buildLoadedEmbeddings_maps _ 0).1.trans
        (buildStoredChunks_text embeddings chunks 0))
  · rw [Option.map_some']
    refine congrArg some ?_
    have h := buildStoredChunks_embedding embeddings chunks 0 (by omega)
    rw [List.drop_zero] at h
    exact (buildLoadedEmbeddings_maps _ 0).2.2.trans h
  · rw [Option.map_some']
    refine congrArg some ?_
    rw [(buildLoadedEmbeddings_maps _ 0).2.1,
      buildStoredChunks_length embeddings chunks 0, List.range_eq_range']

/-- Witness for `saveEmbeddings_load_roundtrip` at a one-chunk store with
the identity fingerprint stand-in. -/
theorem saveEmbeddings_load_roundtrip_witness :
    Option.map (List.map ChunkEmbedding.text)
        (loadExistingEmbeddings (fun s => s)
          (saveEmbeddingsToFile (fun s => s) [] ['f'] [['h', 'i']]
            [⟨0, ['h', 'i'], [⟨[1]⟩]⟩] none 0).1
          ['f'] ['f']) = some [['h', 'i']] :=
  (saveEmbeddings_load_roundtrip (fun s => s) [] ['f'] [['h', 'i']]
    [⟨0, ['h', 'i'], [⟨[1]⟩]⟩] 0 (by decide) (by decide)).1

/-! ## Claim C1 — exact-match de-duplication in the orchestrator -/

theorem jsSortBy_eq_nil_iff (le : α → α → Bool) (l : List α) :
    jsSortBy le l = [] ↔ l = [] := by
  constructor
  · intro h
    have hlen := (jsSortBy_perm le l).length_eq
    rw [h] at hlen
    exact List.length_eq_zero.mp hlen.symm
  · intro h
    rw [h]
    rfl

theorem findQueryByPrompt_eq_none_iff (t : QueryTable) (p : JStr) :
    findQueryByPrompt t p = none ↔
      t.rows.filter
        (fun r => sqlNorm r.prompt == sqlNorm p && !r.isDeleted) = [] := by
  unfold findQueryByPrompt
  rw [List.head?_eq_none_iff]
  exact jsSortBy_eq_nil_iff _ _

theorem find?_append_of_none {α : Type _} (p : α → Bool) (l₁ l₂ : List α)
    (h : l₁.find? p = none) : (l₁ ++ l₂).find? p = l₂.find? p := by
  induction l₁ with
  | nil => rfl
  | cons a l ih =>
    cases hpa : p a with
    | true =>
      rw [List.find?_cons_of_pos _ hpa] at h
      cases h
    | false =>
      rw [List.find?_cons_of_neg _ (by simp [hpa])] at h
      rw [List.cons_append, List.find?_cons_of_neg _ (by simp [hpa])]
      exact ih h

theorem insertQuery_snd (t : QueryTable) (p a : JStr)
    (hfresh : ∀ r ∈ t.rows, r.queryId < t.nextId) :
    (insertQuery t p a).2 =
      some ⟨t.nextId, p, a, t.clock, false, false, false⟩ := by
  have hnone : t.rows.find?
      (fun r => r.queryId == t.nextId && !r.isDeleted) = none := by
    rw [List.find?_eq_none]
    intro x hx
    simp only [Bool.and_eq_true, beq_iff_eq, not_and]
    intro hxid
    exact absurd hxid (Nat.ne_of_lt (hfresh x hx))
  simp only [insertQuery, getQueryById]
  rw [find?_append_of_none _ _ _ hnone]
  rw [List.find?_cons_of_pos _ (by simp)]

theorem insertQuery_fst_rows (t : QueryTable) (p a : JStr) :
    (insertQuery t p a).1.rows =
      t.rows ++ [⟨t.nextId, p, a, t.clock, false, false, false⟩] := rfl

theorem findQueryByPrompt_insert_hit (t : QueryTable) (p1 p2 a : JStr)
    (hnorm : sqlNorm p1 = sqlNorm p2)
    (hmiss : findQueryByPrompt t p1 = none) :
    findQueryByPrompt (insertQuery t p1 a).1 p2 =
      some ⟨t.nextId, p1, a, t.clock, false, false, false⟩ := by
  have hfilter := (findQueryByPrompt_eq_none_iff t p1).mp hmiss
  unfold findQueryByPrompt
  rw [insertQuery_fst_rows, List.filter_append, ← hnorm, hfilter,
    List.nil_append]
  simp [List.filter, jsSortBy, stableInsert]

theorem processPrompt_miss_shape (useLLM : Bool) (cos : List ℚ → List ℚ → ℚ)
    (eo : JStr → List EmbeddingPart) (go : JStr → JStr) (w : WorldV1)
    (p : JStr)
    (hmiss : findQueryByPrompt w.queryTable p = none)
    (hfresh : ∀ r ∈ w.queryTable.rows, r.queryId < w.queryTable.nextId) :
    ∃ ans fp,
      processPrompt useLLM cos eo go w p =
        (⟨(insertQuery w.queryTable p ans).1,
            (getPromptEmbeddingWithCache useLLM eo w.promptCache p).2.1,
            w.fileEmbeddings, w.globalEmbeddings⟩,
          (getPromptEmbeddingWithCache useLLM eo w.promptCache p).2.2 ++
            [ProviderCall.generate fp],
          .ok ⟨ans, w.queryTable.nextId, some fp, false⟩) := by
  refine ⟨go (formatPromptForLLM p (similarityResultText
      (findTopSimilarChunks cos
        (getPromptEmbeddingWithCache useLLM eo w.promptCache p).1 none
        w.fileEmbeddings w.globalEmbeddings))),
    formatPromptForLLM p (similarityResultText
      (findTopSimilarChunks cos
        (getPromptEmbeddingWithCache useLLM eo w.promptCache p).1 none
        w.fileEmbeddings w.globalEmbeddings)), ?_⟩
  have hin := insertQuery_snd w.queryTable p
    (go (formatPromptForLLM p (similarityResultText
      (findTopSimilarChunks cos
        (getPromptEmbeddingWithCache useLLM eo w.promptCache p).1 none
        w.fileEmbeddings w.globalEmbeddings)))) hfresh
  simp only [processPrompt, hmiss, hin]

/-- Claim C1 (confirmed): for a prompt not yet stored (`hmiss`), the first
`processPrompt` call returns `cached = false` with the queryId of the newly
inserted row (fresh by `hfresh`, retrievable, holding this prompt and the
returned answer), and a second call whose prompt has the same
case/whitespace normalization returns `cached = true` with the same queryId
and the same answer, and performs no embedding-provider and no
generation-provider call (its provider-call log is empty). -/
theorem processPrompt_exact_match_dedup (useLLM : Bool)
    (cos : List ℚ → List ℚ → ℚ) (embedOracle : JStr → List EmbeddingPart)
    (genOracle : JStr → JStr) (w : WorldV1) (p1 p2 : JStr)
    (hnorm : sqlNorm p1 = sqlNorm p2)
    (hmiss : findQueryByPrompt w.queryTable p1 = none)
    (hfresh : ∀ r ∈ w.queryTable.rows, r.queryId < w.queryTable.nextId) :
    ∃ r1 r2 : RagResponse,
      (processPrompt useLLM cos embedOracle genOracle w p1).2.2 = .ok r1 ∧
      (processPrompt useLLM cos embedOracle genOracle
          (processPrompt useLLM cos embedOracle genOracle w p1).1 p2).2.2 =
        .ok r2 ∧
      r1.cached = false ∧
      r1.queryId = w.queryTable.nextId ∧
      (∀ r ∈ w.queryTable.rows, r.queryId ≠ r1.queryId) ∧
      getQueryById
          (processPrompt useLLM cos embedOracle genOracle w p1).1.queryTable
          r1.queryId =
        some ⟨w.queryTable.nextId, p1, r1.answer, w.queryTable.clock,
          false, false, false⟩ ∧
      r2.cached = true ∧ r2.queryId = r1.queryId ∧ r2.answer = r1.answer ∧
      (processPrompt useLLM cos embedOracle genOracle
          (processPrompt useLLM cos embedOracle genOracle w p1).1 p2).2.1 =
        [] := by
  obtain ⟨ans, fp, h1⟩ :=
    processPrompt_miss_shape useLLM cos embedOracle genOracle w p1 hmiss hfresh
  have hhit := findQueryByPrompt_insert_hit w.queryTable p1 p2 ans hnorm hmiss
  refine ⟨⟨ans, w.queryTable.nextId, some fp, false⟩,
    ⟨ans, w.queryTable.nextId, none, true⟩, ?_, ?_, rfl, rfl, ?_, ?_, rfl,
    rfl, rfl, ?_⟩
  · rw [h1]
  · rw [h1]
    simp only [processPrompt, hhit]
  · intro r hr
    exact Nat.ne_of_lt (hfresh r hr)
  · rw [h1]
    exact insertQuery_snd w.queryTable p1 ans hfresh
  · rw [h1]
    simp only [processPrompt, hhit]

/-- Witness for `processPrompt_exact_match_dedup`: empty stores, the same
prompt asked twice. -/
theorem processPrompt_exact_match_dedup_witness :
    ∃ r1 r2 : RagResponse,
      (processPrompt false unitOracle (fun _ => []) (fun _ => ['A'])
          ⟨⟨[], 0, 0⟩, [], [], []⟩ ['q']).2.2 = .ok r1 ∧
      (processPrompt false unitOracle (fun _ => []) (fun _ => ['A'])
          (processPrompt false unitOracle (fun _ => []) (fun _ => ['A'])
            ⟨⟨[], 0, 0⟩, [], [], []⟩ ['q']).1 ['q']).2.2 = .ok r2 ∧
      r1.cached = false ∧
      r1.queryId = 0 ∧
      (∀ r ∈ ([] : List QueryRow), r.queryId ≠ r1.queryId) ∧
      getQueryById
          (processPrompt false unitOracle (fun _ => []) (fun _ => ['A'])
            ⟨⟨[], 0, 0⟩, [], [], []⟩ ['q']).1.queryTable r1.queryId =
        some ⟨0, ['q'], r1.answer, 0, false, false, false⟩ ∧
      r2.cached = true ∧ r2.queryId = r1.queryId ∧ r2.answer = r1.answer ∧
      (processPrompt false unitOracle (fun _ => []) (fun _ => ['A'])
          (processPrompt false unitOracle (fun _ => []) (fun _ => ['A'])
            ⟨⟨[], 0, 0⟩, [], [], []⟩ ['q']).1 ['q']).2.1 = [] :=
  processPrompt_exact_match_dedup false unitOracle (fun _ => [])
    (fun _ => ['A']) ⟨⟨[], 0, 0⟩, [], [], []⟩ ['q'] ['q'] rfl (by decide)
    (by decide)
